import Mathlib

/-
  Verification of the mdpu virtual processing unit (src/mdpu.rs).

  The machine state, the State Store operations, the instruction dispatch and
  the fetch-execute loop are embedded below as executable Lean definitions,
  translated arm by arm from the Rust source.  Machine integers (i32) are
  modelled as unbounded Int with an explicit two's-complement wraparound
  (wrap32) exactly where the Rust operation can overflow in release mode;
  Rust division and remainder truncate toward zero, hence Int.tdiv /
  Int.tmod, and they panic unconditionally (in every build mode) when the
  dividend is the i32 minimum and the divisor is -1, an abort modelled as
  the Overflow fault.  Every place the
  source calls std::process::exit mid-run is modelled as a Fault value; a
  faulting State Store operation returns the state it had at the failing
  check, which is the pre-operation state because the source performs all
  checks before mutating.  The loop takes a fuel argument so that it is a
  total function; fuel is distinct from the max_instruction_count budget,
  which is part of the modelled program semantics.
-/

set_option maxHeartbeats 1000000

namespace MDPU

/-- Two's-complement wraparound of an unbounded integer into the signed
    32-bit range, modelling Rust i32 results. -/
def wrap32 (x : Int) : Int := Int.emod (x + 2 ^ 31) (2 ^ 32) - 2 ^ 31

/-- Machine state (struct ProcessingUnit): register bank, linear memory and
    stack pointer. -/
structure ProcessingUnit where
  registers : List Int
  memory : List Int
  stack_pointer : Nat
deriving Repr, DecidableEq

/-- Final snapshot returned to the caller (struct ProcessingUnitState). -/
structure ProcessingUnitState where
  registers : List Int
  stack : List Int
deriving Repr, DecidableEq

/-- The closed opcode set (enum Opcode). -/
inductive Opcode where
  | Nop | Add | Sub | Mul | Div | Store | Load | LoadImmediate | Push | Pop
  | Jmp | Jz | Jnz | Mov | Je | Jne | And | Or | Xor | Not | Shl | Shr
  | Cmp | Test | B | Bz | Bnz | Neg | Abs | Mod | Inc | Dec | Halt
deriving Repr, DecidableEq

/-- A decoded instruction (struct Instruction): opcode plus operand slots. -/
structure Instruction where
  opcode : Opcode
  reg1 : Nat
  reg2 : Nat
  reg3 : Nat
  addr : Nat
  immediate : Int
deriving Repr, DecidableEq

/-- Fault taxonomy: each condition on which the source process terminates
    mid-run.  The first five are the source's explicit eprintln-and-exit
    paths; Overflow is the panic Rust itself raises, in every build mode,
    when an i32 division or remainder overflows (dividend the i32 minimum,
    divisor -1). -/
inductive Fault where
  | OutOfBounds | DivisionByZero | StackOverflow | StackUnderflow | BudgetExceeded
  | Overflow
deriving Repr, DecidableEq

/-- Result of a State Store operation: the machine state at the point the
    operation returned or faulted, plus the fault if one occurred. -/
abbrev OpResult := ProcessingUnit × Option Fault

namespace ProcessingUnit

/-- fn initialize (renamed, the source name is a Lean keyword): zero
    registers and memory, stack pointer at the top of memory. -/
def init (num_registers memory_size : Nat) : ProcessingUnit :=
  { registers := List.replicate num_registers 0
    memory := List.replicate memory_size 0
    stack_pointer := memory_size - 1 }

/-- fn check_register_bounds: a register index at or above the register
    count is an OutOfBounds fault. -/
def check_register_bounds (pu : ProcessingUnit) (reg : Nat) : Option Fault :=
  if reg ≥ pu.registers.length then some Fault.OutOfBounds else none

/-- Reads a register.  Total (defaulting to 0 out of range); the source
    only reads a register after its bounds check has passed, so the default
    is never observable. -/
def readReg (pu : ProcessingUnit) (reg : Nat) : Int := pu.registers.getD reg 0

/-- Reads a memory cell, total in the same way as readReg. -/
def readMem (pu : ProcessingUnit) (addr : Nat) : Int := pu.memory.getD addr 0

end ProcessingUnit

/-- Runs a bounds check before the rest of an operation: on failure the
    operation stops with the state it had at the check. -/
def withCheck (pu : ProcessingUnit) (c : Option Fault) (k : OpResult) : OpResult :=
  match c with
  | some f => (pu, some f)
  | none => k

namespace ProcessingUnit

/-- The shared shape of the three-register operations: bounds-check reg1,
    reg2, reg3 in order, then write f(registers[reg1], registers[reg2]) to
    registers[reg3]. -/
def regOp3 (pu : ProcessingUnit) (reg1 reg2 reg3 : Nat) (f : Int → Int → Int) : OpResult :=
  withCheck pu (pu.check_register_bounds reg1) <|
  withCheck pu (pu.check_register_bounds reg2) <|
  withCheck pu (pu.check_register_bounds reg3) <|
  ({ pu with registers := (pu.registers.set reg3
      (f (pu.readReg reg1) (pu.readReg reg2))) }, none)

/-- fn add. -/
def add (pu : ProcessingUnit) (reg1 reg2 reg3 : Nat) : OpResult :=
  pu.regOp3 reg1 reg2 reg3 (fun a b => wrap32 (a + b))

/-- fn subtract. -/
def subtract (pu : ProcessingUnit) (reg1 reg2 reg3 : Nat) : OpResult :=
  pu.regOp3 reg1 reg2 reg3 (fun a b => wrap32 (a - b))

/-- fn multiply. -/
def multiply (pu : ProcessingUnit) (reg1 reg2 reg3 : Nat) : OpResult :=
  pu.regOp3 reg1 reg2 reg3 (fun a b => wrap32 (a * b))

/-- fn divide: faults with DivisionByZero when the divisor register is
    zero, before any write; with a nonzero divisor the Rust division itself
    panics (Overflow, before any write) when the quotient overflows i32,
    which happens exactly at dividend i32 minimum, divisor -1. -/
def divide (pu : ProcessingUnit) (reg1 reg2 reg3 : Nat) : OpResult :=
  withCheck pu (pu.check_register_bounds reg1) <|
  withCheck pu (pu.check_register_bounds reg2) <|
  withCheck pu (pu.check_register_bounds reg3) <|
  if pu.readReg reg2 ≠ 0 then
    if pu.readReg reg1 = -2 ^ 31 ∧ pu.readReg reg2 = -1 then
      (pu, some Fault.Overflow)
    else
      ({ pu with registers := (pu.registers.set reg3
          (wrap32 (Int.tdiv (pu.readReg reg1) (pu.readReg reg2)))) }, none)
  else (pu, some Fault.DivisionByZero)

/-- fn mod_op: same zero-divisor fault as divide, and the same Overflow
    panic of the Rust remainder at dividend i32 minimum, divisor -1. -/
def mod_op (pu : ProcessingUnit) (reg1 reg2 reg3 : Nat) : OpResult :=
  withCheck pu (pu.check_register_bounds reg1) <|
  withCheck pu (pu.check_register_bounds reg2) <|
  withCheck pu (pu.check_register_bounds reg3) <|
  if pu.readReg reg2 ≠ 0 then
    if pu.readReg reg1 = -2 ^ 31 ∧ pu.readReg reg2 = -1 then
      (pu, some Fault.Overflow)
    else
      ({ pu with registers := (pu.registers.set reg3
          (wrap32 (Int.tmod (pu.readReg reg1) (pu.readReg reg2)))) }, none)
  else (pu, some Fault.DivisionByZero)

/-- fn neg. -/
def neg (pu : ProcessingUnit) (reg1 reg2 : Nat) : OpResult :=
  withCheck pu (pu.check_register_bounds reg1) <|
  withCheck pu (pu.check_register_bounds reg2) <|
  ({ pu with registers := pu.registers.set reg2 (wrap32 (- pu.readReg reg1)) }, none)

/-- fn absolute. -/
def absolute (pu : ProcessingUnit) (reg1 reg2 : Nat) : OpResult :=
  withCheck pu (pu.check_register_bounds reg1) <|
  withCheck pu (pu.check_register_bounds reg2) <|
  ({ pu with registers := pu.registers.set reg2 (wrap32 |pu.readReg reg1|) }, none)

/-- fn store: register bound checked, then the memory address, then the
    write. -/
def store (pu : ProcessingUnit) (reg addr : Nat) : OpResult :=
  withCheck pu (pu.check_register_bounds reg) <|
  if addr < pu.memory.length then
    ({ pu with memory := pu.memory.set addr (pu.readReg reg) }, none)
  else (pu, some Fault.OutOfBounds)

/-- fn load. -/
def load (pu : ProcessingUnit) (addr reg : Nat) : OpResult :=
  withCheck pu (pu.check_register_bounds reg) <|
  if addr < pu.memory.length then
    ({ pu with registers := pu.registers.set reg (pu.readMem addr) }, none)
  else (pu, some Fault.OutOfBounds)

/-- fn push: write registers[reg] at memory[stack_pointer] and decrement
    the pointer; StackOverflow when the pointer is already 0. -/
def push (pu : ProcessingUnit) (reg : Nat) : OpResult :=
  withCheck pu (pu.check_register_bounds reg) <|
  if pu.stack_pointer > 0 then
    ({ pu with memory := (pu.memory.set pu.stack_pointer (pu.readReg reg))
               stack_pointer := pu.stack_pointer - 1 }, none)
  else (pu, some Fault.StackOverflow)

/-- fn pop: increment the pointer and read memory at the new pointer;
    StackUnderflow when the pointer is already at memory_size - 1. -/
def pop (pu : ProcessingUnit) (reg : Nat) : OpResult :=
  withCheck pu (pu.check_register_bounds reg) <|
  if pu.stack_pointer < pu.memory.length - 1 then
    ({ pu with stack_pointer := pu.stack_pointer + 1
               registers := (pu.registers.set reg (pu.readMem (pu.stack_pointer + 1))) }, none)
  else (pu, some Fault.StackUnderflow)

/-- fn mov: registers[reg1] = registers[reg2]. -/
def mov (pu : ProcessingUnit) (reg1 reg2 : Nat) : OpResult :=
  withCheck pu (pu.check_register_bounds reg1) <|
  withCheck pu (pu.check_register_bounds reg2) <|
  ({ pu with registers := pu.registers.set reg1 (pu.readReg reg2) }, none)

end ProcessingUnit

/-- Rust release-mode shift count taken from an i32 operand: its low five
    bits. -/
def shiftCount (b : Int) : Nat := (Int.emod b 32).toNat

/-- Arithmetic (sign-preserving) shift right: floor division by a power of
    two. -/
def sar (a : Int) (n : Nat) : Int := Int.fdiv a (2 ^ n)

/-- Outcome of dispatching one instruction inside the fetch-execute loop:
    fall through to the default advance (with the instruction pointer value
    the arm left behind - the Je/Jne arms overwrite it without suppressing
    the advance), redirect the pointer and skip the advance (the continue
    arms), halt, or fault. -/
inductive DispatchResult where
  | next (pu : ProcessingUnit) (ip : Nat)
  | jump (pu : ProcessingUnit) (ip : Nat)
  | halt (pu : ProcessingUnit)
  | fault (f : Fault) (pu : ProcessingUnit)
deriving Repr, DecidableEq

/-- Lifts a State Store operation into the loop: a fault aborts the run,
    otherwise execution falls through with the pointer unchanged. -/
def liftOp (r : OpResult) (ip : Nat) : DispatchResult :=
  match r with
  | (pu, none) => .next pu ip
  | (pu, some f) => .fault f pu

/-- The match statement of execute_program, one arm per opcode, with the
    current instruction pointer threaded through. -/
def dispatch (pu : ProcessingUnit) (instr : Instruction) (ip : Nat) : DispatchResult :=
  match instr.opcode with
  | .Add => liftOp (pu.add instr.reg1 instr.reg2 instr.reg3) ip
  | .Sub => liftOp (pu.subtract instr.reg1 instr.reg2 instr.reg3) ip
  | .Mul => liftOp (pu.multiply instr.reg1 instr.reg2 instr.reg3) ip
  | .Div => liftOp (pu.divide instr.reg1 instr.reg2 instr.reg3) ip
  | .Store => liftOp (pu.store instr.reg1 instr.addr) ip
  | .Load => liftOp (pu.load instr.addr instr.reg1) ip
  | .LoadImmediate =>
      liftOp (withCheck pu (pu.check_register_bounds instr.reg1)
        ({ pu with registers := pu.registers.set instr.reg1 instr.immediate }, none)) ip
  | .Push => liftOp (pu.push instr.reg1) ip
  | .Pop => liftOp (pu.pop instr.reg1) ip
  | .Jmp => .jump pu instr.addr
  | .Jz =>
      match pu.check_register_bounds instr.reg1 with
      | some f => .fault f pu
      | none =>
          if pu.readReg instr.reg1 = 0 then .jump pu instr.addr
          else .next pu ip
  | .Jnz =>
      match pu.check_register_bounds instr.reg1 with
      | some f => .fault f pu
      | none =>
          if pu.readReg instr.reg1 ≠ 0 then .jump pu instr.addr
          else .next pu ip
  | .Mov => liftOp (pu.mov instr.reg1 instr.reg2) ip
  | .Je =>
      match pu.check_register_bounds instr.reg1 with
      | some f => .fault f pu
      | none =>
      match pu.check_register_bounds instr.reg2 with
      | some f => .fault f pu
      | none =>
          if pu.readReg instr.reg1 = pu.readReg instr.reg2 then
            .next pu instr.addr
          else .next pu ip
  | .Jne =>
      match pu.check_register_bounds instr.reg1 with
      | some f => .fault f pu
      | none =>
      match pu.check_register_bounds instr.reg2 with
      | some f => .fault f pu
      | none =>
          if pu.readReg instr.reg1 ≠ pu.readReg instr.reg2 then
            .next pu instr.addr
          else .next pu ip
  | .And => liftOp (pu.regOp3 instr.reg1 instr.reg2 instr.reg3 Int.land) ip
  | .Or => liftOp (pu.regOp3 instr.reg1 instr.reg2 instr.reg3 Int.lor) ip
  | .Xor => liftOp (pu.regOp3 instr.reg1 instr.reg2 instr.reg3 Int.xor) ip
  | .Not =>
      liftOp (withCheck pu (pu.check_register_bounds instr.reg1) <|
        withCheck pu (pu.check_register_bounds instr.reg2) <|
        ({ pu with registers := (pu.registers.set instr.reg2
            (Int.lnot (pu.readReg instr.reg1))) }, none)) ip
  | .Shl => liftOp (pu.regOp3 instr.reg1 instr.reg2 instr.reg3
      (fun a b => wrap32 (a * 2 ^ shiftCount b))) ip
  | .Shr => liftOp (pu.regOp3 instr.reg1 instr.reg2 instr.reg3
      (fun a b => sar a (shiftCount b))) ip
  | .Cmp => liftOp (pu.regOp3 instr.reg1 instr.reg2 instr.reg3
      (fun a b => wrap32 (a - b))) ip
  | .Test => liftOp (pu.regOp3 instr.reg1 instr.reg2 instr.reg3 Int.land) ip
  | .B => .jump pu instr.addr
  | .Bz =>
      match pu.check_register_bounds instr.reg1 with
      | some f => .fault f pu
      | none =>
          if pu.readReg instr.reg1 = 0 then .jump pu instr.addr
          else .next pu ip
  | .Bnz =>
      match pu.check_register_bounds instr.reg1 with
      | some f => .fault f pu
      | none =>
          if pu.readReg instr.reg1 ≠ 0 then .jump pu instr.addr
          else .next pu ip
  | .Neg => liftOp (pu.neg instr.reg1 instr.reg2) ip
  | .Abs => liftOp (pu.absolute instr.reg1 instr.reg2) ip
  | .Mod => liftOp (pu.mod_op instr.reg1 instr.reg2 instr.reg3) ip
  | .Inc =>
      liftOp (withCheck pu (pu.check_register_bounds instr.reg1)
        ({ pu with registers := (pu.registers.set instr.reg1
            (wrap32 (pu.readReg instr.reg1 + 1))) }, none)) ip
  | .Dec =>
      liftOp (withCheck pu (pu.check_register_bounds instr.reg1)
        ({ pu with registers := (pu.registers.set instr.reg1
            (wrap32 (pu.readReg instr.reg1 - 1))) }, none)) ip
  | .Nop => .next pu ip
  | .Halt => .halt pu

/-- Terminal outcome of a run, with the executed-instruction counter value
    at that moment. -/
inductive ExecResult where
  | Halted (pu : ProcessingUnit) (count : Nat)
  | Faulted (f : Fault) (pu : ProcessingUnit) (count : Nat)
  | OutOfFuel
deriving Repr, DecidableEq

/-- fn execute_program: the while loop, as structural recursion on fuel.
    Arguments after fuel: state, program, max_instruction_count, the
    executed-instruction counter and the instruction pointer.  Per
    iteration: loop condition, then budget check, then fetch and dispatch;
    a continue arm re-enters the loop with the counter unchanged, every
    other completed arm increments the counter and the pointer. -/
def execute_program : Nat → ProcessingUnit → List Instruction → Nat → Nat → Nat → ExecResult
  | 0, _, _, _, _, _ => .OutOfFuel
  | fuel + 1, pu, program, mic, count, ip =>
    if h : ip < program.length then
      if count ≥ mic then .Faulted .BudgetExceeded pu count
      else
        match dispatch pu program[ip] ip with
        | .fault f pu2 => .Faulted f pu2 count
        | .halt pu2 => .Halted pu2 count
        | .jump pu2 ip2 => execute_program fuel pu2 program mic count ip2
        | .next pu2 ip2 => execute_program fuel pu2 program mic (count + 1) (ip2 + 1)
    else .Halted pu count

/-- fn run: execute, then snapshot the registers and the live stack slice
    memory[stack_pointer + 1 ..].  A faulted or fuel-starved execution
    yields no snapshot (the source exits the process before reaching the
    snapshot code). -/
def run (pu : ProcessingUnit) (program : List Instruction) (mic : Nat) (fuel : Nat) :
    Option ProcessingUnitState :=
  match execute_program fuel pu program mic 0 0 with
  | .Halted pu2 _ =>
      some { registers := pu2.registers, stack := pu2.memory.drop (pu2.stack_pointer + 1) }
  | _ => none

end MDPU

namespace MDPU

/-! ### The State Store operations as one closed type -/

/-- The State Store operations, gathered into one closed type so that
    theorems can quantify over every operation at once. -/
inductive StoreOp where
  | add (r1 r2 r3 : Nat)
  | subtract (r1 r2 r3 : Nat)
  | multiply (r1 r2 r3 : Nat)
  | divide (r1 r2 r3 : Nat)
  | mod_op (r1 r2 r3 : Nat)
  | neg (r1 r2 : Nat)
  | absolute (r1 r2 : Nat)
  | mov (r1 r2 : Nat)
  | store (reg addr : Nat)
  | load (addr reg : Nat)
  | push (reg : Nat)
  | pop (reg : Nat)
deriving Repr, DecidableEq

/-- Dispatches a StoreOp to the corresponding State Store function. -/
def applyStoreOp (op : StoreOp) (pu : ProcessingUnit) : OpResult :=
  match op with
  | .add r1 r2 r3 => pu.add r1 r2 r3
  | .subtract r1 r2 r3 => pu.subtract r1 r2 r3
  | .multiply r1 r2 r3 => pu.multiply r1 r2 r3
  | .divide r1 r2 r3 => pu.divide r1 r2 r3
  | .mod_op r1 r2 r3 => pu.mod_op r1 r2 r3
  | .neg r1 r2 => pu.neg r1 r2
  | .absolute r1 r2 => pu.absolute r1 r2
  | .mov r1 r2 => pu.mov r1 r2
  | .store reg addr => pu.store reg addr
  | .load addr reg => pu.load addr reg
  | .push reg => pu.push reg
  | .pop reg => pu.pop reg

/-- The stack pointer invariant of the data model: the pointer is a valid
    memory index (the lower bound 0 is automatic for a Nat). -/
def spInv (pu : ProcessingUnit) : Prop := pu.stack_pointer + 1 ≤ pu.memory.length

instance (pu : ProcessingUnit) : Decidable (spInv pu) := Nat.decLe _ _

/-! ### List helper lemmas -/

theorem getD_set_self (l : List Int) (i : Nat) (a d : Int) (h : i < l.length) :
    (l.set i a).getD i d = a := by
  induction l generalizing i with
  | nil => simp at h
  | cons x xs ih =>
    cases i with
    | zero => simp [List.getD]
    | succ n => simpa [List.getD] using ih n (by simpa using h)

theorem getD_set_ne (l : List Int) (i j : Nat) (a d : Int) (h : i ≠ j) :
    (l.set i a).getD j d = l.getD j d := by
  induction l generalizing i j with
  | nil => simp [List.getD]
  | cons x xs ih =>
    cases i with
    | zero =>
      cases j with
      | zero => exact absurd rfl h
      | succ m => simp [List.getD]
    | succ n =>
      cases j with
      | zero => simp [List.getD]
      | succ m => simpa [List.getD] using ih n m (fun hx => h (by omega))

theorem getD_replicate_zero (n i : Nat) : (List.replicate n (0 : Int)).getD i 0 = 0 := by
  induction n generalizing i with
  | zero => simp [List.getD]
  | succ k ih =>
    cases i with
    | zero => simp [List.getD]
    | succ m => simp [List.getD, ih m]

theorem set_replicate_zero (n i : Nat) :
    (List.replicate n (0 : Int)).set i 0 = List.replicate n 0 := by
  induction n generalizing i with
  | zero => simp
  | succ k ih =>
    cases i with
    | zero => simp [List.replicate]
    | succ m => simp [List.replicate, ih m]

theorem getD_drop_zero (l : List Int) (k : Nat) (d : Int) :
    (l.drop k).getD 0 d = l.getD k d := by
  induction l generalizing k with
  | nil => simp [List.getD]
  | cons x xs ih =>
    cases k with
    | zero => simp [List.getD]
    | succ m => simp [List.getD, ih m]

/-! ### Facts about checks and single operations -/

theorem check_register_bounds_none (pu : ProcessingUnit) (reg : Nat)
    (h : reg < pu.registers.length) : pu.check_register_bounds reg = none := by
  simp [ProcessingUnit.check_register_bounds, Nat.not_le.mpr h]

theorem regOp3_valid (pu : ProcessingUnit) (r1 r2 r3 : Nat) (f : Int → Int → Int)
    (h1 : r1 < pu.registers.length) (h2 : r2 < pu.registers.length)
    (h3 : r3 < pu.registers.length) :
    pu.regOp3 r1 r2 r3 f =
      ({ pu with registers := (pu.registers.set r3
          (f (pu.readReg r1) (pu.readReg r2))) }, none) := by
  simp [ProcessingUnit.regOp3, withCheck, check_register_bounds_none pu _ h1,
    check_register_bounds_none pu _ h2, check_register_bounds_none pu _ h3]

theorem readReg_mk (regs mem : List Int) (sp i : Nat) :
    ProcessingUnit.readReg ⟨regs, mem, sp⟩ i = regs.getD i 0 := rfl

theorem readMem_mk (regs mem : List Int) (sp a : Nat) :
    ProcessingUnit.readMem ⟨regs, mem, sp⟩ a = mem.getD a 0 := rfl

theorem readReg_replicate_zero (n : Nat) (mem : List Int) (sp r : Nat) :
    ProcessingUnit.readReg ⟨List.replicate n 0, mem, sp⟩ r = 0 := by
  rw [readReg_mk]
  exact getD_replicate_zero n r

theorem readReg_set_self (regs mem : List Int) (sp r : Nat) (v : Int)
    (h : r < regs.length) :
    ProcessingUnit.readReg ⟨regs.set r v, mem, sp⟩ r = v := by
  rw [readReg_mk]
  exact getD_set_self regs r v 0 h

theorem readReg_set_ne (regs mem : List Int) (sp i j : Nat) (v : Int) (h : i ≠ j) :
    ProcessingUnit.readReg ⟨regs.set i v, mem, sp⟩ j = regs.getD j 0 := by
  rw [readReg_mk]
  exact getD_set_ne regs i j v 0 h

end MDPU

namespace MDPU

/-! ### Unfolding lemmas for the fetch-execute loop -/

theorem exec_end (fuel : Nat) (pu : ProcessingUnit) (program : List Instruction)
    (mic count ip : Nat) (h : ¬ ip < program.length) :
    execute_program (fuel + 1) pu program mic count ip = .Halted pu count := by
  conv_lhs => rw [execute_program]
  rw [dif_neg h]

theorem exec_budget (fuel : Nat) (pu : ProcessingUnit) (program : List Instruction)
    (mic count ip : Nat) (h : ip < program.length) (hc : count ≥ mic) :
    execute_program (fuel + 1) pu program mic count ip = .Faulted .BudgetExceeded pu count := by
  conv_lhs => rw [execute_program]
  rw [dif_pos h, if_pos hc]

theorem exec_step_next (fuel : Nat) (pu pu2 : ProcessingUnit) (program : List Instruction)
    (mic count ip ip2 : Nat) (h : ip < program.length) (hc : ¬ count ≥ mic)
    (hd : dispatch pu program[ip] ip = .next pu2 ip2) :
    execute_program (fuel + 1) pu program mic count ip =
      execute_program fuel pu2 program mic (count + 1) (ip2 + 1) := by
  conv_lhs => rw [execute_program]
  rw [dif_pos h, if_neg hc, hd]

theorem exec_step_jump (fuel : Nat) (pu pu2 : ProcessingUnit) (program : List Instruction)
    (mic count ip ip2 : Nat) (h : ip < program.length) (hc : ¬ count ≥ mic)
    (hd : dispatch pu program[ip] ip = .jump pu2 ip2) :
    execute_program (fuel + 1) pu program mic count ip =
      execute_program fuel pu2 program mic count ip2 := by
  conv_lhs => rw [execute_program]
  rw [dif_pos h, if_neg hc, hd]

theorem exec_step_fault (fuel : Nat) (pu pu2 : ProcessingUnit) (program : List Instruction)
    (mic count ip : Nat) (f : Fault) (h : ip < program.length) (hc : ¬ count ≥ mic)
    (hd : dispatch pu program[ip] ip = .fault f pu2) :
    execute_program (fuel + 1) pu program mic count ip = .Faulted f pu2 count := by
  conv_lhs => rw [execute_program]
  rw [dif_pos h, if_neg hc, hd]

end MDPU

namespace MDPU

/-! ### Helper lemmas for the stack pointer invariant -/

theorem spInv_applyStoreOp (op : StoreOp) (pu : ProcessingUnit) (hinv : spInv pu)
    (hok : (applyStoreOp op pu).2 = none) : spInv (applyStoreOp op pu).1 := by
  unfold spInv at hinv ⊢
  cases op <;>
    (simp only [applyStoreOp, ProcessingUnit.add, ProcessingUnit.subtract,
      ProcessingUnit.multiply, ProcessingUnit.divide, ProcessingUnit.mod_op,
      ProcessingUnit.neg, ProcessingUnit.absolute, ProcessingUnit.mov,
      ProcessingUnit.store, ProcessingUnit.load, ProcessingUnit.push,
      ProcessingUnit.pop, ProcessingUnit.regOp3, withCheck,
      ProcessingUnit.check_register_bounds] at hok ⊢) <;>
    (repeat' split at hok) <;>
    (repeat' split) <;>
    simp_all [List.length_set] <;> omega

/-! ### Claim theorems -/

/-- The two-instruction probe for claim C1: a JE at address 0 whose branch
    condition holds (a register always equals itself) targeting address 0,
    followed by an LI that is reachable only if the taken JE does not
    suppress the default pointer increment. -/
def c1_program : List Instruction :=
  [⟨.Je, 0, 0, 0, 0, 0⟩, ⟨.LoadImmediate, 0, 0, 0, 0, 7⟩]

/-- C1: refutation on the code.  The claim says a taken JE sets the pointer
    to addr and suppresses the default increment, so program[0] here would
    be refetched forever and the run would exhaust its budget of 10.  In
    the code the Je arm overwrites the pointer but falls through to the
    default advance, so the next fetched instruction is program[addr + 1]:
    the run executes the LI at index 1 and halts normally with register 0
    holding 7 after exactly 2 counted instructions. -/
theorem je_taken_still_advances :
    execute_program 100 (ProcessingUnit.init 1 1) c1_program 10 0 0 =
      .Halted ⟨[7], [0], 0⟩ 2 := by decide

/-- The one-instruction self-loop for claim C2. -/
def jmp_self : List Instruction := [⟨.Jmp, 0, 0, 0, 0, 0⟩]

/-- C2: refutation on the code.  The claim says the self-loop JMP 0 with
    budget N at least 1 faults with BudgetExceeded after exactly N steps.
    In the code the taken Jmp re-enters the loop without incrementing the
    executed-instruction counter, so the counter stays 0, the budget check
    never fires, and the run is still looping after any amount of fuel:
    it neither halts nor faults. -/
theorem jmp_self_never_budget_faults (fuel mic : Nat) (h : 1 ≤ mic) :
    execute_program fuel (ProcessingUnit.init 1 1) jmp_self mic 0 0 = .OutOfFuel := by
  induction fuel with
  | zero => rfl
  | succ k ih =>
    rw [exec_step_jump k (ProcessingUnit.init 1 1) (ProcessingUnit.init 1 1) jmp_self
      mic 0 0 0 (by simp [jmp_self]) (by omega) (by rfl)]
    exact ih

theorem jmp_self_never_budget_faults_witness :
    1 ≤ 3 ∧ execute_program 50 (ProcessingUnit.init 1 1) jmp_self 3 0 0 = .OutOfFuel :=
  ⟨by decide, jmp_self_never_budget_faults 50 3 (by decide)⟩

/-- C3: for every State Store operation, all bounds checks run before any
    mutation, so an operation that faults leaves the machine state exactly
    as it was before the operation: no partial writes. -/
theorem store_ops_no_partial_writes (op : StoreOp) (pu : ProcessingUnit) :
    (applyStoreOp op pu).2 ≠ none → (applyStoreOp op pu).1 = pu := by
  cases op <;>
    simp only [applyStoreOp, ProcessingUnit.add, ProcessingUnit.subtract,
      ProcessingUnit.multiply, ProcessingUnit.divide, ProcessingUnit.mod_op,
      ProcessingUnit.neg, ProcessingUnit.absolute, ProcessingUnit.mov,
      ProcessingUnit.store, ProcessingUnit.load, ProcessingUnit.push,
      ProcessingUnit.pop, ProcessingUnit.regOp3, withCheck,
      ProcessingUnit.check_register_bounds] <;>
    (intro h) <;> (repeat' split at h) <;> (repeat' split) <;> simp_all

theorem store_ops_no_partial_writes_witness :
    (applyStoreOp (.push 0) ⟨[3], [0], 0⟩).2 ≠ none
    ∧ (applyStoreOp (.push 0) ⟨[3], [0], 0⟩).1 = ⟨[3], [0], 0⟩ :=
  ⟨by decide, store_ops_no_partial_writes (.push 0) ⟨[3], [0], 0⟩ (by decide)⟩

/-- C4: on a machine built with memory_size at least 1 the stack pointer
    starts at memory_size - 1, satisfying 0 <= stack_pointer <=
    memory_size - 1; every non-faulting State Store operation preserves the
    invariant; and a push at pointer 0 or a pop at pointer memory_size - 1,
    which would break it, faults (StackOverflow, StackUnderflow) leaving the
    state unchanged. -/
theorem stack_pointer_invariant :
    (∀ nr m, 1 ≤ m →
      (ProcessingUnit.init nr m).stack_pointer = m - 1 ∧ spInv (ProcessingUnit.init nr m))
    ∧ (∀ (op : StoreOp) (pu : ProcessingUnit), spInv pu →
        (applyStoreOp op pu).2 = none → spInv (applyStoreOp op pu).1)
    ∧ (∀ (pu : ProcessingUnit) (reg : Nat), reg < pu.registers.length →
        pu.stack_pointer = 0 → pu.push reg = (pu, some Fault.StackOverflow))
    ∧ (∀ (pu : ProcessingUnit) (reg : Nat), reg < pu.registers.length →
        pu.stack_pointer = pu.memory.length - 1 →
        pu.pop reg = (pu, some Fault.StackUnderflow)) := by
  refine ⟨?_, spInv_applyStoreOp, ?_, ?_⟩
  · intro nr m hm
    constructor
    · rfl
    · simp [spInv, ProcessingUnit.init]
      omega
  · intro pu reg hr hsp
    simp [ProcessingUnit.push, withCheck, check_register_bounds_none pu reg hr, hsp]
  · intro pu reg hr hsp
    simp [ProcessingUnit.pop, withCheck, check_register_bounds_none pu reg hr, hsp]

theorem stack_pointer_invariant_witness :
    spInv (ProcessingUnit.init 2 3)
    ∧ spInv (applyStoreOp (.push 0) (ProcessingUnit.init 2 3)).1
    ∧ ProcessingUnit.push ⟨[1], [0, 0], 0⟩ 0 = (⟨[1], [0, 0], 0⟩, some Fault.StackOverflow)
    ∧ ProcessingUnit.pop ⟨[1], [0, 0], 1⟩ 0 = (⟨[1], [0, 0], 1⟩, some Fault.StackUnderflow) :=
  ⟨(stack_pointer_invariant.1 2 3 (by decide)).2,
   stack_pointer_invariant.2.1 (.push 0) (ProcessingUnit.init 2 3)
     (stack_pointer_invariant.1 2 3 (by decide)).2 (by decide),
   stack_pointer_invariant.2.2.1 ⟨[1], [0, 0], 0⟩ 0 (by decide) (by decide),
   stack_pointer_invariant.2.2.2 ⟨[1], [0, 0], 1⟩ 0 (by decide) (by decide)⟩

end MDPU

namespace MDPU

/-! ### The all-push program of claim C5 -/

/-- A PUSH of register r with all other operand slots zero. -/
def pushInstr (r : Nat) : Instruction := ⟨.Push, r, 0, 0, 0, 0⟩

theorem push_step (n m r j : Nat) (hr : r < n) (hj : j + 1 < m) :
    ProcessingUnit.push ⟨List.replicate n 0, List.replicate m 0, m - 1 - j⟩ r =
      (⟨List.replicate n 0, List.replicate m 0, m - 1 - (j + 1)⟩, none) := by
  have hck : ProcessingUnit.check_register_bounds
      ⟨List.replicate n 0, List.replicate m 0, m - 1 - j⟩ r = none := by
    apply check_register_bounds_none
    simpa using hr
  have hsp : (0 : Nat) < m - 1 - j := by omega
  simp [ProcessingUnit.push, withCheck, hck, hsp, readReg_replicate_zero, set_replicate_zero]
  omega

theorem push_final (n m r : Nat) (hr : r < n) :
    ProcessingUnit.push ⟨List.replicate n 0, List.replicate m 0, 0⟩ r =
      (⟨List.replicate n 0, List.replicate m 0, 0⟩, some Fault.StackOverflow) := by
  have hck : ProcessingUnit.check_register_bounds
      ⟨List.replicate n 0, List.replicate m 0, 0⟩ r = none := by
    apply check_register_bounds_none
    simpa using hr
  simp [ProcessingUnit.push, withCheck, hck]

theorem push_program_loop (m n r mic : Nat) (hm : 2 ≤ m) (hr : r < n) (hmic : m ≤ mic) :
    ∀ fuel j, j ≤ m - 1 → m - j ≤ fuel →
      execute_program fuel ⟨List.replicate n 0, List.replicate m 0, m - 1 - j⟩
        (List.replicate m (pushInstr r)) mic j j
      = .Faulted .StackOverflow ⟨List.replicate n 0, List.replicate m 0, 0⟩ (m - 1) := by
  intro fuel
  induction fuel with
  | zero =>
    intro j hj hf
    exfalso
    omega
  | succ k ih =>
    intro j hj hf
    have hip : j < (List.replicate m (pushInstr r)).length := by
      simp
      omega
    have hfetch : (List.replicate m (pushInstr r))[j] = pushInstr r :=
      List.getElem_replicate _ hip
    by_cases hlast : j = m - 1
    · have hd : dispatch ⟨List.replicate n 0, List.replicate m 0, m - 1 - j⟩
          (List.replicate m (pushInstr r))[j] j =
          .fault .StackOverflow ⟨List.replicate n 0, List.replicate m 0, 0⟩ := by
        rw [hfetch]
        have hsp : m - 1 - j = 0 := by omega
        rw [hsp]
        simp [dispatch, pushInstr, liftOp, push_final n m r hr]

      rw [exec_step_fault k _ _ _ mic j j .StackOverflow hip (by omega) hd, hlast]
    · have hd : dispatch ⟨List.replicate n 0, List.replicate m 0, m - 1 - j⟩
          (List.replicate m (pushInstr r))[j] j =
          .next ⟨List.replicate n 0, List.replicate m 0, m - 1 - (j + 1)⟩ j := by
        rw [hfetch]
        simp [dispatch, pushInstr, liftOp, push_step n m r j hr (by omega)]
      rw [exec_step_next k _ _ _ mic j j j hip (by omega) hd]
      exact ih (j + 1) (by omega) (by omega)

/-- C5: a fresh machine with memory_size at least 2 running a program of
    memory_size consecutive PUSHes of a valid register (with enough budget
    and fuel that nothing else interferes) completes exactly the first
    memory_size - 1 pushes and faults with StackOverflow on the last one:
    the executed-instruction counter reads memory_size - 1 at the fault and
    the stack pointer has reached 0 before the attempted write, so the
    state at the fault (registers and memory all zero, pointer 0) shows no
    effect of the faulting push. -/
theorem push_program_overflow (n m r mic fuel : Nat) (hm : 2 ≤ m) (hr : r < n)
    (hmic : m ≤ mic) (hfuel : m ≤ fuel) :
    execute_program fuel (ProcessingUnit.init n m) (List.replicate m (pushInstr r)) mic 0 0
    = .Faulted .StackOverflow ⟨List.replicate n 0, List.replicate m 0, 0⟩ (m - 1) := by
  have h := push_program_loop m n r mic hm hr hmic fuel 0 (by omega) (by omega)
  simpa [ProcessingUnit.init] using h

theorem push_program_overflow_witness :
    2 ≤ 3 ∧ 0 < 2 ∧
    execute_program 5 (ProcessingUnit.init 2 3) (List.replicate 3 (pushInstr 0)) 4 0 0
    = .Faulted .StackOverflow ⟨List.replicate 2 0, List.replicate 3 0, 0⟩ 2 :=
  ⟨by decide, by decide,
    push_program_overflow 2 3 0 4 5 (by decide) (by decide) (by decide) (by decide)⟩

end MDPU

namespace MDPU

/-- C6 counterexample: at dividend i32 minimum and divisor -1 the divisor
    register is nonzero, yet DIV and MOD abort with the overflow panic of
    the Rust division itself and write no register, refuting "the
    destination register is written if and only if the divisor is
    nonzero". -/
theorem div_mod_nonzero_divisor_no_write :
    ProcessingUnit.readReg ⟨[-(2 ^ 31), -1, 0], [], 0⟩ 1 ≠ 0
    ∧ ProcessingUnit.divide ⟨[-(2 ^ 31), -1, 0], [], 0⟩ 0 1 2 =
        (⟨[-(2 ^ 31), -1, 0], [], 0⟩, some Fault.Overflow)
    ∧ ProcessingUnit.mod_op ⟨[-(2 ^ 31), -1, 0], [], 0⟩ 0 1 2 =
        (⟨[-(2 ^ 31), -1, 0], [], 0⟩, some Fault.Overflow) := by decide

/-- C6 (as amended): with valid register indices, DIV and MOD fault with
    DivisionByZero exactly when the divisor register reg2 holds 0, and
    then mutate no register (the returned state is the input state); with
    a nonzero divisor and operands other than (i32 minimum, -1) they do
    not fault and write exactly the destination register reg3 (quotient
    and remainder truncated toward zero, as in Rust); at dividend i32
    minimum and divisor -1 they abort with the Overflow panic of the Rust
    division, again mutating nothing, so the destination is written only
    for the non-overflowing nonzero divisors. -/
theorem div_mod_zero_divisor (pu : ProcessingUnit) (r1 r2 r3 : Nat)
    (h1 : r1 < pu.registers.length) (h2 : r2 < pu.registers.length)
    (h3 : r3 < pu.registers.length) :
    ((pu.divide r1 r2 r3).2 = some Fault.DivisionByZero ↔ pu.readReg r2 = 0)
    ∧ ((pu.mod_op r1 r2 r3).2 = some Fault.DivisionByZero ↔ pu.readReg r2 = 0)
    ∧ (pu.readReg r2 = 0 →
        pu.divide r1 r2 r3 = (pu, some Fault.DivisionByZero)
        ∧ pu.mod_op r1 r2 r3 = (pu, some Fault.DivisionByZero))
    ∧ (pu.readReg r1 = -2 ^ 31 → pu.readReg r2 = -1 →
        pu.divide r1 r2 r3 = (pu, some Fault.Overflow)
        ∧ pu.mod_op r1 r2 r3 = (pu, some Fault.Overflow))
    ∧ (pu.readReg r2 ≠ 0 → ¬(pu.readReg r1 = -2 ^ 31 ∧ pu.readReg r2 = -1) →
        (pu.divide r1 r2 r3).2 = none
        ∧ (pu.divide r1 r2 r3).1.registers =
            pu.registers.set r3 (wrap32 (Int.tdiv (pu.readReg r1) (pu.readReg r2)))
        ∧ (pu.mod_op r1 r2 r3).2 = none
        ∧ (pu.mod_op r1 r2 r3).1.registers =
            pu.registers.set r3 (wrap32 (Int.tmod (pu.readReg r1) (pu.readReg r2)))) := by
  by_cases hz : pu.readReg r2 = 0
  · simp [ProcessingUnit.divide, ProcessingUnit.mod_op, withCheck,
      check_register_bounds_none pu r1 h1, check_register_bounds_none pu r2 h2,
      check_register_bounds_none pu r3 h3, hz]
  · by_cases hov : pu.readReg r1 = -2147483648 ∧ pu.readReg r2 = -1
    · simp [ProcessingUnit.divide, ProcessingUnit.mod_op, withCheck,
        check_register_bounds_none pu r1 h1, check_register_bounds_none pu r2 h2,
        check_register_bounds_none pu r3 h3, hz, hov]
    · simp [ProcessingUnit.divide, ProcessingUnit.mod_op, withCheck,
        check_register_bounds_none pu r1 h1, check_register_bounds_none pu r2 h2,
        check_register_bounds_none pu r3 h3, hz, hov]
      exact fun ha hb => hov ⟨ha, hb⟩

theorem div_mod_zero_divisor_witness :
    (ProcessingUnit.divide ⟨[5, 0], [], 0⟩ 0 1 1).2 = some Fault.DivisionByZero :=
  ((div_mod_zero_divisor ⟨[5, 0], [], 0⟩ 0 1 1 (by decide) (by decide) (by decide)).1).mpr
    (by decide)

/-- C7: from any state whose stack pointer lies strictly between 0 and
    memory_size - 1 (so the push has room), pushing a valid register r and
    then popping into r succeeds, leaves the value of register r unchanged,
    and restores the stack pointer to exactly its pre-push value. -/
theorem push_pop_roundtrip (pu : ProcessingUnit) (r : Nat)
    (h0 : 0 < pu.stack_pointer) (h1 : pu.stack_pointer < pu.memory.length - 1)
    (hr : r < pu.registers.length) :
    (pu.push r).2 = none
    ∧ ((pu.push r).1.pop r).2 = none
    ∧ ((pu.push r).1.pop r).1.readReg r = pu.readReg r
    ∧ ((pu.push r).1.pop r).1.stack_pointer = pu.stack_pointer := by
  have hpush : pu.push r =
      (⟨pu.registers, pu.memory.set pu.stack_pointer (pu.readReg r),
        pu.stack_pointer - 1⟩, none) := by
    simp [ProcessingUnit.push, withCheck, check_register_bounds_none pu r hr, h0]
  have hck2 : ProcessingUnit.check_register_bounds
      ⟨pu.registers, pu.memory.set pu.stack_pointer (pu.readReg r), pu.stack_pointer - 1⟩ r
      = none :=
    check_register_bounds_none _ r (by simpa using hr)
  have hpop : ProcessingUnit.pop
      ⟨pu.registers, pu.memory.set pu.stack_pointer (pu.readReg r), pu.stack_pointer - 1⟩ r =
      (⟨pu.registers.set r (pu.readReg r),
        pu.memory.set pu.stack_pointer (pu.readReg r), pu.stack_pointer⟩, none) := by
    have hguard : pu.stack_pointer - 1 < pu.memory.length - 1 := by omega
    have hsp : pu.stack_pointer - 1 + 1 = pu.stack_pointer := by omega
    have hread : ProcessingUnit.readMem
        ⟨pu.registers, pu.memory.set pu.stack_pointer (pu.readReg r), pu.stack_pointer - 1⟩
        pu.stack_pointer = pu.readReg r := by
      rw [readMem_mk]
      exact getD_set_self pu.memory pu.stack_pointer (pu.readReg r) 0 (by omega)
    simp [ProcessingUnit.pop, withCheck, hck2, hguard, hsp, hread]
  refine ⟨by rw [hpush], ?_, ?_, ?_⟩ <;>
    simp [hpush, hpop,
      readReg_set_self pu.registers (pu.memory.set pu.stack_pointer (pu.readReg r))
        pu.stack_pointer r (pu.readReg r) hr]

theorem push_pop_roundtrip_witness :
    ((ProcessingUnit.push ⟨[42], [0, 0, 0], 1⟩ 0).1.pop 0).1.readReg 0 =
      ProcessingUnit.readReg ⟨[42], [0, 0, 0], 1⟩ 0
    ∧ ((ProcessingUnit.push ⟨[42], [0, 0, 0], 1⟩ 0).1.pop 0).1.stack_pointer = 1 :=
  ⟨(push_pop_roundtrip ⟨[42], [0, 0, 0], 1⟩ 0 (by decide) (by decide) (by decide)).2.2.1,
   (push_pop_roundtrip ⟨[42], [0, 0, 0], 1⟩ 0 (by decide) (by decide) (by decide)).2.2.2⟩

end MDPU

namespace MDPU

/-! ### The LI / LI / arithmetic-op probe programs of claim C8 -/

/-- LI a into r1, LI b into r2, then op(r1, r2 -> r3). -/
def arithProgram (op : Opcode) (r1 r2 r3 : Nat) (a b : Int) : List Instruction :=
  [⟨.LoadImmediate, r1, 0, 0, 0, a⟩, ⟨.LoadImmediate, r2, 0, 0, 0, b⟩,
   ⟨op, r1, r2, r3, 0, 0⟩]

theorem dispatch_loadImmediate (pu : ProcessingUnit) (r1 r2 r3 a : Nat) (imm : Int)
    (ip : Nat) (h : r1 < pu.registers.length) :
    dispatch pu ⟨.LoadImmediate, r1, r2, r3, a, imm⟩ ip =
      .next ⟨pu.registers.set r1 imm, pu.memory, pu.stack_pointer⟩ ip := by
  simp [dispatch, liftOp, withCheck, check_register_bounds_none pu r1 h]

theorem exec_li_li_op (n m r1 r2 r3 : Nat) (a b : Int) (op : Opcode)
    (g : Int → Int → Int)
    (h1 : r1 < n) (h2 : r2 < n) (h3 : r3 < n) (h12 : r1 ≠ r2)
    (hop : ∀ (pu : ProcessingUnit) (ip : Nat), r1 < pu.registers.length →
      r2 < pu.registers.length → r3 < pu.registers.length →
      dispatch pu ⟨op, r1, r2, r3, 0, 0⟩ ip =
        .next ⟨pu.registers.set r3 (g (pu.readReg r1) (pu.readReg r2)), pu.memory,
          pu.stack_pointer⟩ ip) :
    execute_program 10 (ProcessingUnit.init n m) (arithProgram op r1 r2 r3 a b) 10 0 0 =
      .Halted ⟨(((List.replicate n 0).set r1 a).set r2 b).set r3 (g a b),
        List.replicate m 0, m - 1⟩ 3 := by
  have hl1 : r1 < (List.replicate n (0 : Int)).length := by simpa using h1
  have hl2 : r2 < ((List.replicate n (0 : Int)).set r1 a).length := by simpa using h2
  have hra : ProcessingUnit.readReg
      ⟨((List.replicate n 0).set r1 a).set r2 b, List.replicate m 0, m - 1⟩ r1 = a := by
    rw [readReg_set_ne _ _ _ _ _ _ (fun he => h12 he.symm)]
    exact getD_set_self _ _ _ _ (by simpa using h1)
  have hrb : ProcessingUnit.readReg
      ⟨((List.replicate n 0).set r1 a).set r2 b, List.replicate m 0, m - 1⟩ r2 = b :=
    readReg_set_self _ _ _ _ _ (by simpa using h2)
  have hd0 : dispatch (ProcessingUnit.init n m) ⟨.LoadImmediate, r1, 0, 0, 0, a⟩ 0 =
      .next ⟨(List.replicate n 0).set r1 a, List.replicate m 0, m - 1⟩ 0 :=
    dispatch_loadImmediate (ProcessingUnit.init n m) r1 0 0 0 a 0
      (by simpa [ProcessingUnit.init] using h1)
  have hd1 : dispatch ⟨(List.replicate n 0).set r1 a, List.replicate m 0, m - 1⟩
      ⟨.LoadImmediate, r2, 0, 0, 0, b⟩ 1 =
      .next ⟨((List.replicate n 0).set r1 a).set r2 b, List.replicate m 0, m - 1⟩ 1 :=
    dispatch_loadImmediate _ r2 0 0 0 b 1 hl2
  have hd2 : dispatch ⟨((List.replicate n 0).set r1 a).set r2 b, List.replicate m 0, m - 1⟩
      ⟨op, r1, r2, r3, 0, 0⟩ 2 =
      .next ⟨(((List.replicate n 0).set r1 a).set r2 b).set r3 (g a b),
        List.replicate m 0, m - 1⟩ 2 := by
    rw [hop _ 2 (by simpa using h1) (by simpa using h2) (by simpa using h3), hra, hrb]
  rw [show (10 : Nat) = 9 + 1 from rfl,
    exec_step_next 9 _ _ _ 10 0 0 0 (by simp [arithProgram]) (by omega) hd0,
    show (9 : Nat) = 8 + 1 from rfl,
    exec_step_next 8 _ _ _ 10 1 1 1 (by simp [arithProgram]) (by omega) hd1,
    show (8 : Nat) = 7 + 1 from rfl,
    exec_step_next 7 _ _ _ 10 2 2 2 (by simp [arithProgram]) (by omega) hd2,
    show (7 : Nat) = 6 + 1 from rfl,
    exec_end 6 _ _ 10 3 3 (by simp [arithProgram])]

/-- C8: on a fresh machine, for valid and distinct operand registers r1, r2
    and any valid destination r3, the program LI a into r1; LI b into r2;
    then ADD(r1,r2,r3) halts with r3 holding the signed 32-bit sum of a and
    b; with SUB it holds the 32-bit difference, with MUL the 32-bit
    product (each result wrapped into the i32 range by wrap32, the two's
    complement i32 semantics of the Rust source). -/
theorem li_li_arithmetic (n m r1 r2 r3 : Nat) (a b : Int)
    (h1 : r1 < n) (h2 : r2 < n) (h3 : r3 < n) (h12 : r1 ≠ r2) :
    (execute_program 10 (ProcessingUnit.init n m) (arithProgram .Add r1 r2 r3 a b) 10 0 0 =
      .Halted ⟨(((List.replicate n 0).set r1 a).set r2 b).set r3 (wrap32 (a + b)),
        List.replicate m 0, m - 1⟩ 3)
    ∧ (execute_program 10 (ProcessingUnit.init n m) (arithProgram .Sub r1 r2 r3 a b) 10 0 0 =
      .Halted ⟨(((List.replicate n 0).set r1 a).set r2 b).set r3 (wrap32 (a - b)),
        List.replicate m 0, m - 1⟩ 3)
    ∧ (execute_program 10 (ProcessingUnit.init n m) (arithProgram .Mul r1 r2 r3 a b) 10 0 0 =
      .Halted ⟨(((List.replicate n 0).set r1 a).set r2 b).set r3 (wrap32 (a * b)),
        List.replicate m 0, m - 1⟩ 3) := by
  refine ⟨exec_li_li_op n m r1 r2 r3 a b .Add (fun x y => wrap32 (x + y)) h1 h2 h3 h12 ?_,
    exec_li_li_op n m r1 r2 r3 a b .Sub (fun x y => wrap32 (x - y)) h1 h2 h3 h12 ?_,
    exec_li_li_op n m r1 r2 r3 a b .Mul (fun x y => wrap32 (x * y)) h1 h2 h3 h12 ?_⟩ <;>
  · intro pu ip hh1 hh2 hh3
    simp [dispatch, ProcessingUnit.add, ProcessingUnit.subtract, ProcessingUnit.multiply,
      liftOp, regOp3_valid pu r1 r2 r3 _ hh1 hh2 hh3]

theorem li_li_arithmetic_witness :
    execute_program 10 (ProcessingUnit.init 3 2) (arithProgram .Add 0 1 2 2 3) 10 0 0 =
      .Halted ⟨[2, 3, 5], [0, 0], 1⟩ 3 := by
  have h := (li_li_arithmetic 3 2 0 1 2 2 3 (by decide) (by decide) (by decide)
    (by decide)).1
  rw [h]
  decide

end MDPU

namespace MDPU

/-- C9: whenever execution halts, the snapshot run returns to the caller is
    the full final register sequence in index order together with exactly
    the memory sub-range from stack_pointer + 1 through the last memory
    index, in increasing address order; and after any successful push (from
    a state whose pointer is a valid memory index) the first element of
    that live-stack slice is the value just pushed, so the most recently
    pushed live value appears first in the yielded stack sequence. -/
theorem run_snapshot :
    (∀ (fuel : Nat) (pu : ProcessingUnit) (program : List Instruction) (mic : Nat)
      (pu2 : ProcessingUnit) (c : Nat),
      execute_program fuel pu program mic 0 0 = .Halted pu2 c →
      run pu program mic fuel =
        some ⟨pu2.registers, pu2.memory.drop (pu2.stack_pointer + 1)⟩)
    ∧ (∀ (pu : ProcessingUnit) (r : Nat), pu.stack_pointer < pu.memory.length →
        (pu.push r).2 = none →
        ((pu.push r).1.memory.drop ((pu.push r).1.stack_pointer + 1)).getD 0 0 =
          pu.readReg r) := by
  constructor
  · intro fuel pu program mic pu2 c h
    unfold run
    rw [h]
  · intro pu r hsp hok
    cases hcc : pu.check_register_bounds r with
    | some f =>
      exfalso
      simp [ProcessingUnit.push, withCheck, hcc] at hok
    | none =>
      by_cases hs : 0 < pu.stack_pointer
      · have hpush : pu.push r =
            (⟨pu.registers, pu.memory.set pu.stack_pointer (pu.readReg r),
              pu.stack_pointer - 1⟩, none) := by
          simp [ProcessingUnit.push, withCheck, hcc, hs]
        rw [hpush]
        have hsp1 : pu.stack_pointer - 1 + 1 = pu.stack_pointer := by omega
        simp only [hsp1]
        rw [getD_drop_zero]
        exact getD_set_self pu.memory pu.stack_pointer (pu.readReg r) 0 (by simpa using hsp)
      · exfalso
        simp [ProcessingUnit.push, withCheck, hcc, hs] at hok

theorem run_snapshot_witness :
    run (ProcessingUnit.init 2 3) [] 5 1 = some ⟨[0, 0], []⟩
    ∧ ((ProcessingUnit.push ⟨[7], [0, 0], 1⟩ 0).1.memory.drop
        ((ProcessingUnit.push ⟨[7], [0, 0], 1⟩ 0).1.stack_pointer + 1)).getD 0 0 =
      ProcessingUnit.readReg ⟨[7], [0, 0], 1⟩ 0 := by
  constructor
  · have h := run_snapshot.1 1 (ProcessingUnit.init 2 3) [] 5 (ProcessingUnit.init 2 3) 0
      (by rfl)
    rw [h]
    decide
  · exact run_snapshot.2 ⟨[7], [0, 0], 1⟩ 0 (by decide) (by decide)

/-- C10: JMP and B always, and JZ/JNZ/BZ/BNZ when their tested condition
    holds (with the tested register in bounds), dispatch to a redirect that
    sets the instruction pointer to the instruction's addr; and the loop
    consumes a redirect by re-entering with the executed-instruction
    counter unchanged, so taken jumps of these opcodes are free with
    respect to the execution budget: only steps that fall through to the
    default advance are counted. -/
theorem taken_jumps_not_counted :
    (∀ (pu : ProcessingUnit) (instr : Instruction) (ip : Nat),
      (instr.opcode = .Jmp ∨ instr.opcode = .B) →
      dispatch pu instr ip = .jump pu instr.addr)
    ∧ (∀ (pu : ProcessingUnit) (instr : Instruction) (ip : Nat),
      (instr.opcode = .Jz ∨ instr.opcode = .Bz) →
      instr.reg1 < pu.registers.length → pu.readReg instr.reg1 = 0 →
      dispatch pu instr ip = .jump pu instr.addr)
    ∧ (∀ (pu : ProcessingUnit) (instr : Instruction) (ip : Nat),
      (instr.opcode = .Jnz ∨ instr.opcode = .Bnz) →
      instr.reg1 < pu.registers.length → pu.readReg instr.reg1 ≠ 0 →
      dispatch pu instr ip = .jump pu instr.addr)
    ∧ (∀ (fuel : Nat) (pu pu2 : ProcessingUnit) (program : List Instruction)
        (mic count ip ip2 : Nat) (h : ip < program.length), count < mic →
        dispatch pu program[ip] ip = .jump pu2 ip2 →
        execute_program (fuel + 1) pu program mic count ip =
          execute_program fuel pu2 program mic count ip2) := by
  refine ⟨?_, ?_, ?_, ?_⟩
  · rintro pu instr ip (h | h) <;> simp [dispatch, h]
  · rintro pu instr ip (h | h) hb hz <;>
      simp [dispatch, h, check_register_bounds_none pu instr.reg1 hb, hz]
  · rintro pu instr ip (h | h) hb hz <;>
      simp [dispatch, h, check_register_bounds_none pu instr.reg1 hb, hz]
  · intro fuel pu pu2 program mic count ip ip2 h hc hd
    exact exec_step_jump fuel pu pu2 program mic count ip ip2 h (by omega) hd

theorem taken_jumps_not_counted_witness :
    dispatch (ProcessingUnit.init 1 1) ⟨.Jmp, 0, 0, 0, 0, 0⟩ 0 =
      .jump (ProcessingUnit.init 1 1) 0
    ∧ dispatch (ProcessingUnit.init 1 1) ⟨.Jz, 0, 0, 0, 0, 0⟩ 0 =
      .jump (ProcessingUnit.init 1 1) 0
    ∧ execute_program (4 + 1) (ProcessingUnit.init 1 1) jmp_self 7 0 0 =
      execute_program 4 (ProcessingUnit.init 1 1) jmp_self 7 0 0 :=
  ⟨taken_jumps_not_counted.1 (ProcessingUnit.init 1 1) ⟨.Jmp, 0, 0, 0, 0, 0⟩ 0 (Or.inl rfl),
   taken_jumps_not_counted.2.1 (ProcessingUnit.init 1 1) ⟨.Jz, 0, 0, 0, 0, 0⟩ 0 (Or.inl rfl)
     (by decide) (by decide),
   taken_jumps_not_counted.2.2.2 4 (ProcessingUnit.init 1 1) (ProcessingUnit.init 1 1)
     jmp_self 7 0 0 0 (by simp [jmp_self]) (by decide) (by rfl)⟩

end MDPU
